import Mathlib

/-!
Verification of the 2D rigid-body physics engine (GJK/EPA narrow phase,
sequential-impulse contact and joint solver).

The TypeScript/JavaScript sources are embedded shallowly over the real
numbers: JavaScript number arithmetic is modelled by exact real arithmetic,
mutation by explicit state passing, and the bounded `for` loops of GJK and
EPA by fuel-indexed recursion with an explicit count of executed iterations.

Files `math.js` (Vector2 and matrix primitives), `simplex.js` and
`polytope.js` are not part of the available sources; the definitions that
stand in for them are marked `Modelled from the spec:` and follow the
specification text (geometry primitives; closest point on a simplex with
its minimal supporting sub-simplex; closest polytope edge with outward
normal).
-/

noncomputable section

namespace Physics

/-- Modelled from the spec: 2D vector from the geometry primitives of
`math.js` (absent from the sources). Components are real numbers. -/
structure Vector2 where
  x : ℝ
  y : ℝ

instance : DecidableEq Vector2 :=
  fun a b => decidable_of_iff (a.x = b.x ∧ a.y = b.y)
    (by cases a; cases b; simp)

/-- Modelled from the spec: componentwise vector addition. -/
def Vector2.addV (a b : Vector2) : Vector2 := ⟨a.x + b.x, a.y + b.y⟩

/-- Modelled from the spec: componentwise vector subtraction. -/
def Vector2.subV (a b : Vector2) : Vector2 := ⟨a.x - b.x, a.y - b.y⟩

/-- Modelled from the spec: scalar multiple of a vector. -/
def Vector2.mulS (v : Vector2) (s : ℝ) : Vector2 := ⟨v.x * s, v.y * s⟩

/-- Modelled from the spec: vector negation, `Vector2.inverted` in the sources. -/
def Vector2.inverted (v : Vector2) : Vector2 := ⟨-v.x, -v.y⟩

/-- Modelled from the spec: dot product. -/
def Vector2.dot (a b : Vector2) : ℝ := a.x * b.x + a.y * b.y

/-- Modelled from the spec: 2D cross product (z component of the 3D cross). -/
def Vector2.cross (a b : Vector2) : ℝ := a.x * b.y - a.y * b.x

/-- Modelled from the spec: Euclidean length, `getLength` in the sources. -/
def Vector2.getLength (v : Vector2) : ℝ := Real.sqrt (v.x * v.x + v.y * v.y)

/-- Modelled from the spec: the vector scaled to unit length.  Division by a
zero length is the junk value of real division, mirroring that the engine
only normalizes vectors it knows to be nonzero. -/
def Vector2.normalized (v : Vector2) : Vector2 := v.mulS (1 / v.getLength)

/-- The zero vector, used as the origin of the CSO. -/
def origin : Vector2 := ⟨0, 0⟩

/-- `cross(scalar, vector)` from `util.ts`: scalar (angular velocity) cross
vector (lever arm). -/
def crossSV (s : ℝ) (v : Vector2) : Vector2 := ⟨-s * v.y, s * v.x⟩

/-- `clamp` from `util.ts`. -/
def clamp (value mn mx : ℝ) : ℝ :=
  if value < mn then mn else if value > mx then mx else value

/-- `toFixed` from `util.ts`: round to a granularity of `1e-13`.
`Math.round` of JavaScript rounds half toward positive infinity, exactly as
Mathlib `round`. -/
def toFixed (value : ℝ) : ℝ :=
  (round (value / (1 / 10 ^ 13)) : ℤ) * (1 / 10 ^ 13)

/-- Modelled from the spec: componentwise `toFixed` (`Vector2.fixed` of the
absent `math.js`), used by GJK to compare the closest point with the origin
at a granularity of 1e-13. -/
def vecFixed (v : Vector2) : Vector2 := ⟨toFixed v.x, toFixed v.y⟩

/-- Modelled from the spec: the rotation part of a body transform. -/
def rotateVec (angle : ℝ) (v : Vector2) : Vector2 :=
  ⟨Real.cos angle * v.x - Real.sin angle * v.y,
   Real.sin angle * v.x + Real.cos angle * v.y⟩

/-- Modelled from the spec: a body-owned affine transform (rotation then
translation), standing in for the Matrix3 returned by `localToGlobal`. -/
structure Transform where
  position : Vector2
  rotation : ℝ

/-- Modelled from the spec: `localToGlobal().mulVector(v, z)` — rotate and,
when `z = 1`, translate by the body position (`z = 0` transforms directions). -/
def Transform.mulVectorLG (t : Transform) (v : Vector2) (z : ℝ) : Vector2 :=
  (rotateVec t.rotation v).addV (t.position.mulS z)

/-- Modelled from the spec: `globalToLocal().mulVector(v, z)` — the inverse
affine transform of `Transform.mulVectorLG`. -/
def Transform.mulVectorGL (t : Transform) (v : Vector2) (z : ℝ) : Vector2 :=
  rotateVec (-t.rotation) (v.subV (t.position.mulS z))

/-- Modelled from the spec: a 2×2 matrix (`Matrix2` of the absent `math.js`). -/
structure Matrix2 where
  m00 : ℝ
  m01 : ℝ
  m10 : ℝ
  m11 : ℝ

/-- Modelled from the spec: 2×2 matrix inverse by the adjugate formula. -/
def Matrix2.inverted (m : Matrix2) : Matrix2 :=
  let det := m.m00 * m.m11 - m.m01 * m.m10
  ⟨m.m11 / det, -m.m01 / det, -m.m10 / det, m.m00 / det⟩

/-- Modelled from the spec: matrix-vector product. -/
def Matrix2.mulVector (m : Matrix2) (v : Vector2) : Vector2 :=
  ⟨m.m00 * v.x + m.m01 * v.y, m.m10 * v.x + m.m11 * v.y⟩

/-- Shape data of a collider: the closed set of shape variants
(`Circle | Polygon`, a box being a 4-vertex polygon). -/
inductive ShapeData where
  | circle (radius : ℝ)
  | polygon (vertices : List Vector2)

/-- The rigid body collider (`collider.ts` / `rigidbody.ts`): kinematic
state, mass data with stored inverses, and the material coefficients. -/
structure Collider where
  shape : ShapeData
  position : Vector2
  rotation : ℝ
  linearVelocity : Vector2
  angularVelocity : ℝ
  mass : ℝ
  inverseMass : ℝ
  inertia : ℝ
  inverseInertia : ℝ
  centerOfMass : Vector2
  friction : ℝ
  contactBeta : ℝ
  restitution : ℝ

/-- The transform returned by `Collider.localToGlobal()`. -/
def Collider.localToGlobal (c : Collider) : Transform := ⟨c.position, c.rotation⟩

/-- `Number.MAX_VALUE` of JavaScript as an exact rational constant. -/
def numberMaxValue : ℝ := 17976931348623157 * 10 ^ 292

/-- The `mass` setter of `collider.ts`: the stored mass is the input clamped
to `[0, Number.MAX_VALUE]`; the stored inverse is `0` for a stored `0` and
otherwise the inverse of the stored (clamped) value.  Returns the pair
(stored mass, stored inverse mass). -/
def massSet (m : ℝ) : ℝ × ℝ :=
  let stored := clamp m 0 numberMaxValue
  (stored, if stored = 0 then 0 else 1 / stored)

/-- The `inertia` setter of `collider.ts`: the stored inertia is the input
clamped to `[0, Number.MAX_VALUE]`, but the stored inverse divides by the
raw input `i`, not by the stored value (`this._invInertia = ... 1.0 / i`).
Returns the pair (stored inertia, stored inverse inertia). -/
def inertiaSet (i : ℝ) : ℝ × ℝ :=
  let stored := clamp i 0 numberMaxValue
  (stored, if stored = 0 then 0 else 1 / i)

/-- Constraint kind of a contact constraint (`ConstraintType` in `contact.ts`). -/
inductive ConstraintType where
  | normal
  | tangent
deriving DecidableEq

/-- A Jacobian row of the contact solver (`contact.ts`). -/
structure Jacobian where
  va : Vector2
  wa : ℝ
  vb : Vector2
  wb : ℝ

/-- The static `penetration_slop` of `ContactConstraintSolver`. -/
def penetrationSlop : ℝ := 0.5

/-- The static `restitution_slop` of `ContactConstraintSolver`. -/
def restitutionSlop : ℝ := 10.0

/-- Per-contact immutable data of a `ContactManifold` read by the solver. -/
structure ManifoldInfo where
  penetrationDepth : ℝ
  contactNormal : Vector2

/-- The contact tangent stored by the `ContactManifold` constructor:
the perpendicular of the contact normal. -/
def ManifoldInfo.contactTangent (m : ManifoldInfo) : Vector2 :=
  ⟨-m.contactNormal.y, m.contactNormal.x⟩

/-- The state of one `ContactConstraintSolver` (one row, normal or tangent,
of one contact point).  Mutable fields of the class become fields here. -/
structure ContactConstraintSolver where
  constraintType : ConstraintType
  contactPoint : Vector2
  ra : Vector2
  rb : Vector2
  jacobian : Jacobian
  bias : ℝ
  effectiveMass : ℝ
  beta : ℝ
  restitution : ℝ
  friction : ℝ
  impulseSum : ℝ

/-- The `ContactConstraintSolver` constructor: computes the lever arms
`ra`, `rb` (contact point minus each body world center of mass) and
zero-initializes `bias` and `impulseSum`.  The remaining fields are
definitely assigned by `init` before use (`!` fields in the source); they
are zero here. -/
def mkContactSolver (a b : Collider) (contactPoint : Vector2) :
    ContactConstraintSolver where
  constraintType := .normal
  contactPoint := contactPoint
  ra := contactPoint.subV (a.localToGlobal.mulVectorLG a.centerOfMass 1)
  rb := contactPoint.subV (b.localToGlobal.mulVectorLG b.centerOfMass 1)
  jacobian := ⟨⟨0, 0⟩, 0, ⟨0, 0⟩, 0⟩
  bias := 0
  effectiveMass := 0
  beta := 0
  restitution := 0
  friction := 0
  impulseSum := 0

/-- The relative velocity of the two bodies at the contact point, as
computed inside `ContactConstraintSolver.init`. -/
def relativeVelocityAt (a b : Collider) (ra rb : Vector2) : Vector2 :=
  (b.linearVelocity.addV (crossSV b.angularVelocity rb)).subV
    (a.linearVelocity.addV (crossSV a.angularVelocity ra))

/-- `ContactConstraintSolver.init`: sets the per-contact material products,
the Jacobian row for direction `dir`, the bias (position correction plus
restitution for normal constraints; untouched, hence the constructor value
`0`, for tangent constraints) and the effective mass. -/
def ContactConstraintSolver.init (s : ContactConstraintSolver)
    (a b : Collider) (m : ManifoldInfo) (dir : Vector2)
    (constraintType : ConstraintType) (delta : ℝ) : ContactConstraintSolver :=
  let beta := a.contactBeta * b.contactBeta
  let restitution := a.restitution * b.restitution
  let friction := a.friction * b.friction
  let jacobian : Jacobian := ⟨dir.inverted, -(s.ra.cross dir), dir, s.rb.cross dir⟩
  let approachingVelocity := (relativeVelocityAt a b s.ra s.rb).dot m.contactNormal
  let bias :=
    match constraintType with
    | .normal =>
        (-(beta / delta) * max (m.penetrationDepth - penetrationSlop) 0 +
          restitution * max (approachingVelocity - restitutionSlop) 0)
    | .tangent => s.bias
  let k := a.inverseMass + jacobian.wa * a.inverseInertia * jacobian.wa +
    b.inverseMass + jacobian.wb * b.inverseInertia * jacobian.wb
  { s with
    constraintType := constraintType
    beta := beta
    restitution := restitution
    friction := friction
    jacobian := jacobian
    bias := bias
    effectiveMass := 1 / k }

/-- `ContactConstraintSolver.solve`: accumulated-impulse step.  The clamped
new accumulated impulse replaces the old one and only the difference is
applied to the body velocities.  `friendImpulseSum` is the accumulated
impulse of the normal solver of the same contact point (the
`friendNormal.impulseSum` read in the tangent branch; it is not read by the
normal branch, for which the manifold passes no argument). -/
def ContactConstraintSolver.solve (s : ContactConstraintSolver)
    (a b : Collider) (friendImpulseSum : ℝ) :
    ContactConstraintSolver × Collider × Collider :=
  let jv := s.jacobian.va.dot a.linearVelocity + s.jacobian.wa * a.angularVelocity +
    s.jacobian.vb.dot b.linearVelocity + s.jacobian.wb * b.angularVelocity
  let lambda := s.effectiveMass * (-(jv + s.bias))
  let oldImpulseSum := s.impulseSum
  let newImpulseSum :=
    match s.constraintType with
    | .normal => max 0 (s.impulseSum + lambda)
    | .tangent =>
      let maxFriction := s.friction * friendImpulseSum
      clamp (s.impulseSum + lambda) (-maxFriction) maxFriction
  let lam := newImpulseSum - oldImpulseSum
  let a2 := { a with
    linearVelocity := a.linearVelocity.addV (s.jacobian.va.mulS (a.inverseMass * lam))
    angularVelocity := a.angularVelocity + a.inverseInertia * s.jacobian.wa * lam }
  let b2 := { b with
    linearVelocity := b.linearVelocity.addV (s.jacobian.vb.mulS (b.inverseMass * lam))
    angularVelocity := b.angularVelocity + b.inverseInertia * s.jacobian.wb * lam }
  ({ s with impulseSum := newImpulseSum }, a2, b2)

/-- One contact point of `ContactManifold.solve`: the normal solver runs
first, then the tangent solver of the same point reads the just-updated
normal accumulated impulse. -/
def manifoldPointSolve (n t : ContactConstraintSolver) (a b : Collider) :
    ContactConstraintSolver × ContactConstraintSolver × Collider × Collider :=
  let rn := n.solve a b 0
  let rt := t.solve rn.2.1 rn.2.2 rn.1.impulseSum
  (rn.1, rt.1, rt.2.1, rt.2.2)

/-- After a normal-constraint `solve` the accumulated impulse is a `max`
with `0`, hence nonnegative, whatever the incoming state. -/
lemma solve_normal_impulseSum_nonneg (s : ContactConstraintSolver)
    (a b : Collider) (f : ℝ) (h : s.constraintType = .normal) :
    0 ≤ ((s.solve a b f).1).impulseSum := by
  simp only [ContactConstraintSolver.solve, h]
  exact le_max_left 0 _

/-- `|clamp x (-m) m| ≤ m` whenever `0 ≤ m`. -/
lemma abs_clamp_le (x m : ℝ) (hm : 0 ≤ m) : |clamp x (-m) m| ≤ m := by
  unfold clamp
  split
  · rw [abs_neg, abs_of_nonneg hm]
  · split
    · rw [abs_of_nonneg hm]
    · next h1 h2 =>
      rw [abs_le]
      constructor <;> [exact le_of_not_lt h1; exact le_of_not_gt h2]

/-- Claim C8: the inertia setter divides by the raw input instead of the
stored clamped value.  For the input `Number.MAX_VALUE + 1` (in JavaScript,
any non-finite input such as `Infinity`), the stored inertia is the clamp
ceiling `Number.MAX_VALUE` but the stored inverse is `1 / (MAX_VALUE + 1)`,
which is not the multiplicative inverse of the stored value — refuting the
claim that the stored inverse always inverts the stored clamped value.
The mass setter, by contrast, does divide by its stored value. -/
theorem inertiaSet_inverse_mismatch :
    (inertiaSet (numberMaxValue + 1)).1 = numberMaxValue ∧
    (inertiaSet (numberMaxValue + 1)).2 = 1 / (numberMaxValue + 1) ∧
    (inertiaSet (numberMaxValue + 1)).2 ≠ 1 / (inertiaSet (numberMaxValue + 1)).1 := by
  have hM : (0:ℝ) < numberMaxValue := by norm_num [numberMaxValue]
  have h1 : ¬ (numberMaxValue + 1 < (0:ℝ)) := by linarith
  have h2 : numberMaxValue + 1 > numberMaxValue := by linarith
  have hstored : (inertiaSet (numberMaxValue + 1)).1 = numberMaxValue := by
    simp only [inertiaSet, clamp, if_neg h1, if_pos h2]
  refine ⟨hstored, ?_, ?_⟩
  · simp only [inertiaSet, clamp, if_neg h1, if_pos h2]
    rw [if_neg (by linarith)]
  · rw [hstored]
    simp only [inertiaSet, clamp, if_neg h1, if_pos h2]
    rw [if_neg (by linarith)]
    intro h
    have hM1 : (0:ℝ) < numberMaxValue + 1 := by linarith
    have := (div_eq_div_iff (ne_of_gt hM1) (ne_of_gt hM)).mp h
    linarith


/-- Projection lemmas for `init` (all definitional). -/
lemma init_constraintType (s : ContactConstraintSolver) (a b : Collider)
    (m : ManifoldInfo) (dir : Vector2) (ct : ConstraintType) (delta : ℝ) :
    (s.init a b m dir ct delta).constraintType = ct := rfl

/-- `init` stores the product of the body friction coefficients. -/
lemma init_friction (s : ContactConstraintSolver) (a b : Collider)
    (m : ManifoldInfo) (dir : Vector2) (ct : ConstraintType) (delta : ℝ) :
    (s.init a b m dir ct delta).friction = a.friction * b.friction := rfl

/-- `init` does not touch the accumulated impulse. -/
lemma init_impulseSum (s : ContactConstraintSolver) (a b : Collider)
    (m : ManifoldInfo) (dir : Vector2) (ct : ConstraintType) (delta : ℝ) :
    (s.init a b m dir ct delta).impulseSum = s.impulseSum := rfl

/-- The normal component of a manifold point solve is the normal solver run
on the incoming bodies. -/
lemma manifoldPointSolve_normal (n t : ContactConstraintSolver) (a b : Collider) :
    (manifoldPointSolve n t a b).1 = (n.solve a b 0).1 := rfl

/-- The tangent component of a manifold point solve is the tangent solver
run on the bodies produced by the normal solve, fed the just-updated normal
accumulated impulse. -/
lemma manifoldPointSolve_tangent (n t : ContactConstraintSolver) (a b : Collider) :
    (manifoldPointSolve n t a b).2.1 =
      (t.solve ((n.solve a b 0)).2.1 ((n.solve a b 0)).2.2
        ((n.solve a b 0)).1.impulseSum).1 := rfl

/-- After a tangent-constraint `solve` the accumulated impulse lies inside
`[-friction*friend, friction*friend]` whenever that interval is legal. -/
lemma solve_tangent_abs_le (s : ContactConstraintSolver) (a b : Collider)
    (f : ℝ) (h : s.constraintType = .tangent) (hf : 0 ≤ s.friction * f) :
    |((s.solve a b f).1).impulseSum| ≤ s.friction * f := by
  simp only [ContactConstraintSolver.solve, h]
  exact abs_clamp_le _ _ hf

/-- Claim C1: after every call of the normal constraint `solve`, the
accumulated normal impulse `impulseSum` is nonnegative — whatever the
bodies, velocities, bias, or accumulated impulse already reached (the new
value is `max(0, old + lambda)`). -/
theorem contact_solve_normal_impulse_nonneg (s : ContactConstraintSolver)
    (a b : Collider) (f : ℝ) (h : s.constraintType = ConstraintType.normal) :
    0 ≤ ((s.solve a b f).1).impulseSum :=
  solve_normal_impulseSum_nonneg s a b f h

/-- A representative collider used to instantiate universally quantified
claim theorems at a concrete input. -/
def sampleCollider : Collider where
  shape := .circle 1
  position := ⟨0, 0⟩
  rotation := 0
  linearVelocity := ⟨2, -3⟩
  angularVelocity := 5
  mass := 2
  inverseMass := 1 / 2
  inertia := 1
  inverseInertia := 1
  centerOfMass := ⟨0, 0⟩
  friction := 0.7
  contactBeta := 0.5
  restitution := 0.001

/-- A representative contact manifold datum: unit depth, upward normal. -/
def sampleManifold : ManifoldInfo := ⟨1, ⟨0, 1⟩⟩

/-- A normal-constraint solver prepared on the sample data. -/
def sampleNormalSolver : ContactConstraintSolver :=
  (mkContactSolver sampleCollider sampleCollider ⟨1, 0⟩).init sampleCollider
    sampleCollider sampleManifold sampleManifold.contactNormal .normal (1 / 60)

/-- A tangent-constraint solver prepared on the sample data. -/
def sampleTangentSolver : ContactConstraintSolver :=
  (mkContactSolver sampleCollider sampleCollider ⟨1, 0⟩).init sampleCollider
    sampleCollider sampleManifold sampleManifold.contactTangent .tangent (1 / 60)

/-- Witness for claim C1 at a concrete solver state and collider pair. -/
theorem contact_solve_normal_impulse_nonneg_witness :
    0 ≤ ((sampleNormalSolver.solve sampleCollider sampleCollider 0).1).impulseSum :=
  contact_solve_normal_impulse_nonneg sampleNormalSolver sampleCollider
    sampleCollider 0 rfl

/-- Claim C2: for a contact point whose normal and tangent solvers were
both initialized by `prepare` (so the tangent solver carries
`friction = a.friction * b.friction`), running the manifold solve order —
normal first, then tangent fed the just-updated normal accumulated impulse
— leaves the tangent accumulated impulse inside the Coulomb cone
`|impulse| ≤ friction * normalImpulse`.  The nonnegativity of the body
friction coefficients is an invariant of the collider setters. -/
theorem contact_tangent_impulse_in_friction_cone
    (sn st : ContactConstraintSolver) (a b : Collider) (m : ManifoldInfo)
    (dirN dirT : Vector2) (delta : ℝ)
    (ha : 0 ≤ a.friction) (hb : 0 ≤ b.friction) :
    |((manifoldPointSolve (sn.init a b m dirN .normal delta)
        (st.init a b m dirT .tangent delta) a b).2.1).impulseSum| ≤
      (a.friction * b.friction) *
        ((manifoldPointSolve (sn.init a b m dirN .normal delta)
          (st.init a b m dirT .tangent delta) a b).1).impulseSum := by
  rw [manifoldPointSolve_normal, manifoldPointSolve_tangent]
  have hn : 0 ≤ (((sn.init a b m dirN .normal delta)).solve a b 0).1.impulseSum :=
    solve_normal_impulseSum_nonneg _ a b 0 (init_constraintType ..)
  have hf : 0 ≤ (st.init a b m dirT .tangent delta).friction *
      (((sn.init a b m dirN .normal delta)).solve a b 0).1.impulseSum := by
    rw [init_friction]
    exact mul_nonneg (mul_nonneg ha hb) hn
  have := solve_tangent_abs_le (st.init a b m dirT .tangent delta)
    (((sn.init a b m dirN .normal delta)).solve a b 0).2.1
    (((sn.init a b m dirN .normal delta)).solve a b 0).2.2
    (((sn.init a b m dirN .normal delta)).solve a b 0).1.impulseSum
    (init_constraintType ..) hf
  rwa [init_friction] at this

/-- Witness for claim C2 at a concrete collider pair and solver states. -/
theorem contact_tangent_impulse_in_friction_cone_witness :
    |((manifoldPointSolve
        ((mkContactSolver sampleCollider sampleCollider ⟨1, 0⟩).init sampleCollider
          sampleCollider sampleManifold sampleManifold.contactNormal .normal (1 / 60))
        ((mkContactSolver sampleCollider sampleCollider ⟨1, 0⟩).init sampleCollider
          sampleCollider sampleManifold sampleManifold.contactTangent .tangent (1 / 60))
        sampleCollider sampleCollider).2.1).impulseSum| ≤
      (sampleCollider.friction * sampleCollider.friction) *
        ((manifoldPointSolve
          ((mkContactSolver sampleCollider sampleCollider ⟨1, 0⟩).init sampleCollider
            sampleCollider sampleManifold sampleManifold.contactNormal .normal (1 / 60))
          ((mkContactSolver sampleCollider sampleCollider ⟨1, 0⟩).init sampleCollider
            sampleCollider sampleManifold sampleManifold.contactTangent .tangent (1 / 60))
          sampleCollider sampleCollider).1).impulseSum :=
  contact_tangent_impulse_in_friction_cone
    (mkContactSolver sampleCollider sampleCollider ⟨1, 0⟩)
    (mkContactSolver sampleCollider sampleCollider ⟨1, 0⟩)
    sampleCollider sampleCollider sampleManifold
    sampleManifold.contactNormal sampleManifold.contactTangent (1 / 60)
    (by norm_num [sampleCollider]) (by norm_num [sampleCollider])

/-- Claim C4: for a freshly constructed contact solver, `init` as a normal
constraint computes the bias
`-(beta/delta) * max(depth - penetration_slop, 0)
 + restitution * max(approachingVelocity - restitution_slop, 0)`
with `beta` and `restitution` the products of the body coefficients and the
approaching velocity the relative contact-point velocity projected on the
contact normal; `init` as a tangent constraint leaves the constructed bias
`0`; and the stored friction is the product of the body coefficients. -/
theorem contact_init_bias (a b : Collider) (cp : Vector2) (m : ManifoldInfo)
    (dirN dirT : Vector2) (delta : ℝ) :
    (((mkContactSolver a b cp).init a b m dirN .normal delta).bias =
      -((a.contactBeta * b.contactBeta) / delta) *
          max (m.penetrationDepth - penetrationSlop) 0 +
        (a.restitution * b.restitution) *
          max ((relativeVelocityAt a b (mkContactSolver a b cp).ra
            (mkContactSolver a b cp).rb).dot m.contactNormal - restitutionSlop) 0) ∧
    ((mkContactSolver a b cp).init a b m dirT .tangent delta).bias = 0 ∧
    ((mkContactSolver a b cp).init a b m dirN .normal delta).friction =
      a.friction * b.friction :=
  ⟨rfl, rfl, rfl⟩


/-- Extensionality for `Vector2`. -/
lemma vecExt {a b : Vector2} (hx : a.x = b.x) (hy : a.y = b.y) : a = b := by
  cases a; cases b; simp_all

/-- Componentwise sum of a list of vectors. -/
def vecSum (l : List Vector2) : Vector2 :=
  ⟨(l.map Vector2.x).sum, (l.map Vector2.y).sum⟩

/-- The center the `Polygon` constructor computes: the componentwise mean
of the vertex list (named `centerOfMass` in the source). -/
def polygonCenter (vs : List Vector2) : Vector2 :=
  ⟨(vs.map Vector2.x).sum / vs.length, (vs.map Vector2.y).sum / vs.length⟩

/-- The vertex recentering performed once by the `Polygon` constructor
(`polygon.ts` and `polygon.js`): the computed center is subtracted from
every vertex in place; the stored vertex list is the result. -/
def polygonRecenter (vs : List Vector2) : List Vector2 :=
  vs.map (fun v => v.subV (polygonCenter vs))

/-- Summing a constant shift out of a mapped list. -/
lemma sum_map_sub_const (l : List Vector2) (f : Vector2 → ℝ) (c : ℝ) :
    (l.map (fun v => f v - c)).sum = (l.map f).sum - l.length * c := by
  induction l with
  | nil => simp
  | cons h t ih =>
    simp only [List.map_cons, List.sum_cons, ih, List.length_cons]
    push_cast
    ring

/-- Claim C9: for a vertex list with at least 3 vertices the constructor
stores the vertices translated by one fixed vector — the computed polygon
center — and after construction the stored vertices sum to the zero
vector.  The recentering is the single translation performed by the
constructor. -/
theorem polygon_constructor_recenters (vs : List Vector2) (h : 3 ≤ vs.length) :
    vecSum (polygonRecenter vs) = ⟨0, 0⟩ ∧
    (∃ c : Vector2, polygonRecenter vs = vs.map (fun v => v.subV c)) := by
  have hn : (vs.length : ℝ) ≠ 0 := Nat.cast_ne_zero.mpr (by omega)
  refine ⟨?_, ⟨polygonCenter vs, rfl⟩⟩
  unfold vecSum polygonRecenter
  refine vecExt ?_ ?_
  · show (List.map Vector2.x (vs.map fun v => v.subV (polygonCenter vs))).sum = 0
    rw [List.map_map]
    have hf : (Vector2.x ∘ fun v => v.subV (polygonCenter vs)) =
        fun v => Vector2.x v - (vs.map Vector2.x).sum / vs.length := by
      funext v
      simp [Vector2.subV, polygonCenter]
    rw [hf, sum_map_sub_const]
    field_simp
  · show (List.map Vector2.y (vs.map fun v => v.subV (polygonCenter vs))).sum = 0
    rw [List.map_map]
    have hf : (Vector2.y ∘ fun v => v.subV (polygonCenter vs)) =
        fun v => Vector2.y v - (vs.map Vector2.y).sum / vs.length := by
      funext v
      simp [Vector2.subV, polygonCenter]
    rw [hf, sum_map_sub_const]
    field_simp

/-- A concrete triangle for instantiating the polygon claim. -/
def triangleW : List Vector2 := [⟨0, 0⟩, ⟨3, 0⟩, ⟨0, 3⟩]

/-- Witness for claim C9: a concrete triangle. -/
theorem polygon_constructor_recenters_witness :
    vecSum (polygonRecenter triangleW) = ⟨0, 0⟩ ∧
    (∃ c : Vector2, polygonRecenter triangleW = triangleW.map (fun v => v.subV c)) :=
  polygon_constructor_recenters triangleW (by simp [triangleW])

/-- Barycentric weights returned by `getUV` (`util.js`). -/
structure UV where
  u : ℝ
  v : ℝ

/-- `getUV` from `util.js`: project `p` onto the edge from `a` to `b`;
the source normalizes the edge direction, projects `p - a` on it and
divides the coordinate by the edge length. -/
def getUV (a b p : Vector2) : UV :=
  let dir := b.subV a
  let len := dir.getLength
  let dirN := dir.normalized
  let region := dirN.dot (p.subV a) / len
  ⟨1 - region, region⟩

/-- `lerpVector` from `util.js`: combine `a` and `b` with weights `u`, `v`. -/
def lerpVector (a b : Vector2) (uv : UV) : Vector2 :=
  ⟨a.x * uv.u + b.x * uv.v, a.y * uv.u + b.y * uv.v⟩

/-- `lerpVertex` as imported by the EPA code: the four-argument form of
`lerpVector`. -/
def lerpVertex (a b : Vector2) (u v : ℝ) : Vector2 :=
  ⟨a.x * u + b.x * v, a.y * u + b.y * v⟩

/-- The second weight of `getUV`, unfolded. -/
lemma getUV_v (a b p : Vector2) :
    (getUV a b p).v = (b.subV a).normalized.dot (p.subV a) / (b.subV a).getLength :=
  rfl

/-- The first weight of `getUV` is one minus the second. -/
lemma getUV_u (a b p : Vector2) : (getUV a b p).u = 1 - (getUV a b p).v := rfl

/-- Core algebraic identity behind `getUV`: dividing the normalized
projection by the length once more yields the quotient by the squared
length. -/
lemma uv_core (dx dy qx qy L : ℝ) (hL : L * L = dx * dx + dy * dy) (hLne : L ≠ 0) :
    (dx * (1 / L) * qx + dy * (1 / L) * qy) / L = (dx * qx + dy * qy) / (dx * dx + dy * dy) := by
  have h1 : (dx * (1 / L) * qx + dy * (1 / L) * qy) / L = (dx * qx + dy * qy) / (L * L) := by
    field_simp
  rw [h1, hL]

/-- Claim C10: for distinct `a`, `b` and any `p`, the weights of
`getUV a b p` sum to `1`, and `lerpVector a b (getUV a b p)` is the
orthogonal projection of `p` onto the line through `a` and `b`: it lies on
that line and its difference from `p` is orthogonal to the edge direction —
the property the EPA witness-point interpolation relies on. -/
theorem getUV_lerpVector_orthogonal_projection (a b p : Vector2) (hab : a ≠ b) :
    (getUV a b p).u + (getUV a b p).v = 1 ∧
    (∃ t : ℝ, lerpVector a b (getUV a b p) = a.addV ((b.subV a).mulS t)) ∧
    (p.subV (lerpVector a b (getUV a b p))).dot (b.subV a) = 0 := by
  obtain ⟨ax, ay⟩ := a
  obtain ⟨bx, bb⟩ := b
  obtain ⟨px, py⟩ := p
  have hd : ¬(bx - ax = 0 ∧ bb - ay = 0) := by
    rintro ⟨hx, hy⟩
    exact hab (by refine vecExt ?_ ?_ <;> simp <;> linarith)
  have hDpos : 0 < (bx - ax) * (bx - ax) + (bb - ay) * (bb - ay) := by
    rcases not_and_or.mp hd with hx | hy
    · nlinarith [mul_self_pos.mpr hx, mul_self_nonneg (bb - ay)]
    · nlinarith [mul_self_pos.mpr hy, mul_self_nonneg (bx - ax)]
  have hDne : (bx - ax) * (bx - ax) + (bb - ay) * (bb - ay) ≠ 0 := ne_of_gt hDpos
  have hv : (getUV ⟨ax, ay⟩ ⟨bx, bb⟩ ⟨px, py⟩).v =
      ((bx - ax) * (px - ax) + (bb - ay) * (py - ay)) /
        ((bx - ax) * (bx - ax) + (bb - ay) * (bb - ay)) := by
    rw [getUV_v]
    simp only [Vector2.normalized, Vector2.mulS, Vector2.dot, Vector2.subV,
      Vector2.getLength]
    exact uv_core (bx - ax) (bb - ay) (px - ax) (py - ay) _
      (Real.mul_self_sqrt (le_of_lt hDpos))
      (ne_of_gt (Real.sqrt_pos.mpr hDpos))
  refine ⟨by rw [getUV_u]; ring, ⟨(getUV ⟨ax, ay⟩ ⟨bx, bb⟩ ⟨px, py⟩).v, ?_⟩, ?_⟩
  · refine vecExt ?_ ?_ <;>
      simp only [lerpVector, Vector2.addV, Vector2.subV, Vector2.mulS, getUV_u] <;>
      ring
  · simp only [lerpVector, Vector2.dot, Vector2.subV, getUV_u]
    rw [hv]
    field_simp
    ring

/-- Witness for claim C10 at concrete distinct points. -/
theorem getUV_lerpVector_orthogonal_projection_witness :
    (getUV ⟨0, 0⟩ ⟨1, 0⟩ ⟨5, 7⟩).u + (getUV ⟨0, 0⟩ ⟨1, 0⟩ ⟨5, 7⟩).v = 1 ∧
    (∃ t : ℝ, lerpVector ⟨0, 0⟩ ⟨1, 0⟩ (getUV ⟨0, 0⟩ ⟨1, 0⟩ ⟨5, 7⟩) =
      Vector2.addV ⟨0, 0⟩ (Vector2.mulS (Vector2.subV ⟨1, 0⟩ ⟨0, 0⟩) t)) ∧
    (Vector2.subV ⟨5, 7⟩ (lerpVector ⟨0, 0⟩ ⟨1, 0⟩
      (getUV ⟨0, 0⟩ ⟨1, 0⟩ ⟨5, 7⟩))).dot (Vector2.subV ⟨1, 0⟩ ⟨0, 0⟩) = 0 :=
  getUV_lerpVector_orthogonal_projection ⟨0, 0⟩ ⟨1, 0⟩ ⟨5, 7⟩
    (by intro h; injection h with hx hy; exact one_ne_zero hx.symm)

/-- The settings fields read by the joints (`settings.ts`): fixed timestep,
its inverse, and the two solver toggles. -/
structure JointSettings where
  dt : ℝ
  inv_dt : ℝ
  positionCorrection : Bool
  warmStarting : Bool

/-- The state of a `MotorJoint` (`motor.js`): accumulated impulses carried
across steps, configuration, and the quantities computed by `prepare`
(definitely assigned before `solve` reads them; zero-initialized here). -/
structure MotorJoint where
  linearImpulseSum : Vector2
  angularImpulseSum : ℝ
  linearOffset : Vector2
  initialAngle : ℝ
  angularOffset : ℝ
  maxForce : ℝ
  maxTorque : ℝ
  localAnchorA : Vector2
  localAnchorB : Vector2
  beta : ℝ
  gamma : ℝ
  ra : Vector2
  rb : Vector2
  m0 : Matrix2
  m1 : ℝ
  bias0 : Vector2
  bias1 : ℝ

/-- The `MotorJoint` constructor: anchors in each body frame, the
spring-damper derived soft-constraint coefficients
`beta = h k / (d + h k)`, `gamma = 1 / ((d + h k) h)`. -/
def motorConstructor (cfg : JointSettings) (bodyA bodyB : Collider)
    (anchor : Vector2) (maxForce maxTorque frequency dampingRatio mass : ℝ) :
    MotorJoint :=
  let mass2 := if mass ≤ 0 then bodyB.mass else mass
  let frequency2 := if frequency ≤ 0 then 0.01 else frequency
  let dampingRatio2 := clamp dampingRatio 0 1
  let omega := 2 * Real.pi * frequency2
  let d := 2 * mass2 * dampingRatio2 * omega
  let k := mass2 * omega * omega
  let h := cfg.dt
  { linearImpulseSum := ⟨0, 0⟩
    angularImpulseSum := 0
    linearOffset := ⟨0, 0⟩
    initialAngle := bodyB.rotation - bodyA.rotation
    angularOffset := 0
    maxForce := maxForce
    maxTorque := maxTorque
    localAnchorA := bodyA.localToGlobal.mulVectorGL anchor 1
    localAnchorB := bodyB.localToGlobal.mulVectorGL anchor 1
    beta := h * k / (d + h * k)
    gamma := 1 / ((d + h * k) * h)
    ra := ⟨0, 0⟩
    rb := ⟨0, 0⟩
    m0 := ⟨0, 0, 0, 0⟩
    m1 := 0
    bias0 := ⟨0, 0⟩
    bias1 := 0 }

/-- `MotorJoint.applyImpulse`: apply the revolute impulse `lambda01` and
the angle impulse `lambda2` to both body velocities. -/
def motorApplyImpulse (j : MotorJoint) (bodyA bodyB : Collider)
    (lambda01 : Vector2) (lambda2 : ℝ) : Collider × Collider :=
  let a1 := { bodyA with
    linearVelocity := bodyA.linearVelocity.subV (lambda01.mulS bodyA.inverseMass)
    angularVelocity := bodyA.angularVelocity - bodyA.inverseInertia * j.ra.cross lambda01 }
  let b1 := { bodyB with
    linearVelocity := bodyB.linearVelocity.addV (lambda01.mulS bodyB.inverseMass)
    angularVelocity := bodyB.angularVelocity + bodyB.inverseInertia * j.rb.cross lambda01 }
  let a2 := { a1 with angularVelocity := a1.angularVelocity - lambda2 * bodyA.inverseInertia }
  let b2 := { b1 with angularVelocity := b1.angularVelocity + lambda2 * bodyB.inverseInertia }
  (a2, b2)

/-- `MotorJoint.prepare`: world lever arms, effective masses softened by
`gamma`, position-error biases, and, under warm starting, application of
the accumulated impulses carried from the previous step. -/
def motorPrepare (cfg : JointSettings) (j : MotorJoint) (bodyA bodyB : Collider) :
    MotorJoint × Collider × Collider :=
  let ra := bodyA.localToGlobal.mulVectorLG j.localAnchorA 0
  let rb := bodyB.localToGlobal.mulVectorLG j.localAnchorB 0
  let k0 : Matrix2 :=
    ⟨bodyA.inverseMass + bodyB.inverseMass +
        bodyA.inverseInertia * ra.y * ra.y + bodyB.inverseInertia * rb.y * rb.y + j.gamma,
      -(bodyA.inverseInertia * ra.y * ra.x) - bodyB.inverseInertia * rb.y * rb.x,
      -(bodyA.inverseInertia * ra.x * ra.y) - bodyB.inverseInertia * rb.x * rb.y,
      bodyA.inverseMass + bodyB.inverseMass +
        bodyA.inverseInertia * ra.x * ra.x + bodyB.inverseInertia * rb.x * rb.x + j.gamma⟩
  let k1 := bodyA.inverseInertia + bodyB.inverseInertia + j.gamma
  let pa := bodyA.position.addV ra
  let pb := bodyB.position.addV rb
  let error0 := pb.subV (pa.addV j.linearOffset)
  let error1 := bodyB.rotation - bodyA.rotation - j.initialAngle - j.angularOffset
  let j2 := { j with
    ra := ra
    rb := rb
    m0 := k0.inverted
    m1 := 1 / k1
    bias0 := if cfg.positionCorrection then error0.mulS (j.beta * cfg.inv_dt) else ⟨0, 0⟩
    bias1 := if cfg.positionCorrection then error1 * j.beta * cfg.inv_dt else 0 }
  if cfg.warmStarting then
    let ab := motorApplyImpulse j2 bodyA bodyB j2.linearImpulseSum j2.angularImpulseSum
    (j2, ab.1, ab.2)
  else
    (j2, bodyA, bodyB)

/-- `MotorJoint.solve`: compute the corrective impulses, accumulate them
with the linear rescale clamp and the scalar angular clamp, apply the
clamped difference to the bodies — and, under warm starting, add the
applied difference to the accumulated sums once more (the statement the
source makes after its clamp blocks). -/
def motorSolve (cfg : JointSettings) (j : MotorJoint) (bodyA bodyB : Collider) :
    MotorJoint × Collider × Collider :=
  let jv0 := (bodyB.linearVelocity.addV (crossSV bodyB.angularVelocity j.rb)).subV
    (bodyA.linearVelocity.addV (crossSV bodyA.angularVelocity j.ra))
  let jv1 := bodyB.angularVelocity - bodyA.angularVelocity
  let lambda0 := j.m0.mulVector ((jv0.addV j.bias0).addV (j.linearImpulseSum.mulS j.gamma)).inverted
  let lambda1 := j.m1 * (-(jv1 + j.bias1))
  let maxLinearImpulse := cfg.dt * j.maxForce
  let oldLinearImpulse := j.linearImpulseSum
  let sumLin := j.linearImpulseSum.addV lambda0
  let sumLinC := if sumLin.getLength > maxLinearImpulse
    then sumLin.normalized.mulS maxLinearImpulse else sumLin
  let lambda0c := sumLinC.subV oldLinearImpulse
  let maxAngularImpulse := cfg.dt * j.maxTorque
  let oldAngularImpulse := j.angularImpulseSum
  let sumAngC := clamp (j.angularImpulseSum + lambda1) (-maxAngularImpulse) maxAngularImpulse
  let lambda1c := sumAngC - oldAngularImpulse
  let j2 := { j with linearImpulseSum := sumLinC, angularImpulseSum := sumAngC }
  let ab := motorApplyImpulse j2 bodyA bodyB lambda0c lambda1c
  let j3 := if cfg.warmStarting then
    { j2 with
      linearImpulseSum := sumLinC.addV lambda0c
      angularImpulseSum := sumAngC + lambda1c }
    else j2
  (j3, ab.1, ab.2)

/-- The engine default settings relevant to joints: `dt = 1/60`,
`inv_dt = 60`, position correction and warm starting enabled. -/
def motorSettings : JointSettings := ⟨1 / 60, 60, true, true⟩

/-- A static ground body (inverse mass and inertia zero). -/
def motorBodyA : Collider where
  shape := .circle 1
  position := ⟨0, 0⟩
  rotation := 0
  linearVelocity := ⟨0, 0⟩
  angularVelocity := 0
  mass := 1
  inverseMass := 0
  inertia := 1
  inverseInertia := 0
  centerOfMass := ⟨0, 0⟩
  friction := 0.7
  contactBeta := 0.5
  restitution := 0.001

/-- A unit-mass dynamic body spinning at 100 rad/s. -/
def motorBodyB : Collider where
  shape := .circle 1
  position := ⟨0, 0⟩
  rotation := 0
  linearVelocity := ⟨0, 0⟩
  angularVelocity := 100
  mass := 1
  inverseMass := 1
  inertia := 1
  inverseInertia := 1
  centerOfMass := ⟨0, 0⟩
  friction := 0.7
  contactBeta := 0.5
  restitution := 0.001

/-- The concrete motor joint of the counterexample: anchored at the shared
origin, `maxTorque = 60` (so the cap is `maxTorque * dt = 1`),
`frequency = 60`, critical damping, mass taken from body B. -/
def motorJ0 : MotorJoint :=
  motorConstructor motorSettings motorBodyA motorBodyB ⟨0, 0⟩ 100000 60 60 1 (-1)

/-- The joint and bodies after `prepare`. -/
def motorPrep : MotorJoint × Collider × Collider :=
  motorPrepare motorSettings motorJ0 motorBodyA motorBodyB

/-- The joint and bodies after one `solve` following `prepare`. -/
def motorSolved : MotorJoint × Collider × Collider :=
  motorSolve motorSettings motorPrep.1 motorPrep.2.1 motorPrep.2.2

/-- `clamp` hits its lower bound. -/
lemma clamp_eq_of_lt (v mn mx : ℝ) (h : v < mn) : clamp v mn mx = mn := by
  unfold clamp
  rw [if_pos h]

/-- The softness coefficient of the counterexample joint in closed form. -/
lemma motor_gamma_eq : motorJ0.gamma = 1 / (4 * Real.pi + 4 * Real.pi ^ 2) := by
  simp only [motorJ0, motorConstructor, motorSettings, motorBodyB, clamp]
  norm_num
  ring_nf
  rw [show Real.pi * 240 + Real.pi ^ 2 * 240 = 60 * (Real.pi * 4 + Real.pi ^ 2 * 4) by ring,
    mul_inv]
  ring


/-- The softness coefficient of the counterexample joint lies in `(0, 1)`. -/
lemma motor_gamma_bounds : 0 < motorJ0.gamma ∧ motorJ0.gamma < 1 := by
  rw [motor_gamma_eq]
  have hpi : (3:ℝ) < Real.pi := Real.pi_gt_three
  have hden : (48:ℝ) < 4 * Real.pi + 4 * Real.pi ^ 2 := by nlinarith
  constructor
  · positivity
  · rw [div_lt_one (by linarith)]
    linarith

/-- The joint state produced by `prepare` on the counterexample input:
zero lever arms, zero biases, softened scalar effective mass, accumulated
sums still zero, configuration unchanged. -/
lemma motorPrep_projections :
    motorPrep.1.ra = ⟨0, 0⟩ ∧ motorPrep.1.rb = ⟨0, 0⟩ ∧
    motorPrep.1.m1 = 1 / (1 + motorJ0.gamma) ∧
    motorPrep.1.bias0 = ⟨0, 0⟩ ∧ motorPrep.1.bias1 = 0 ∧
    motorPrep.1.gamma = motorJ0.gamma ∧
    motorPrep.1.linearImpulseSum = ⟨0, 0⟩ ∧ motorPrep.1.angularImpulseSum = 0 ∧
    motorPrep.1.maxTorque = 60 ∧ motorPrep.1.maxForce = 100000 := by
  refine ⟨?_, ?_, ?_, ?_, ?_, ?_, ?_, ?_, ?_, ?_⟩ <;>
    simp [motorPrep, motorPrepare, motorSettings, motorBodyA, motorBodyB,
      Transform.mulVectorLG, Transform.mulVectorGL, Collider.localToGlobal,
      rotateVec, Vector2.addV, Vector2.subV, Vector2.mulS,
      motorJ0, motorConstructor, clamp]


/-- The body velocities after `prepare` on the counterexample input (the
warm-start application adds zero impulses). -/
lemma motorPrep_bodies :
    motorPrep.2.1.linearVelocity = ⟨0, 0⟩ ∧ motorPrep.2.1.angularVelocity = 0 ∧
    motorPrep.2.2.linearVelocity = ⟨0, 0⟩ ∧ motorPrep.2.2.angularVelocity = 100 := by
  refine ⟨?_, ?_, ?_, ?_⟩ <;>
    simp [motorPrep, motorPrepare, motorApplyImpulse, motorSettings, motorBodyA,
      motorBodyB, Transform.mulVectorLG, Transform.mulVectorGL,
      Collider.localToGlobal, rotateVec, Vector2.addV, Vector2.subV,
      Vector2.mulS, Vector2.cross, motorJ0, motorConstructor, clamp]

/-- After one `solve`, the accumulated angular impulse of the
counterexample joint is `-2`. -/
lemma motorSolved_angular : motorSolved.1.angularImpulseSum = -2 := by
  obtain ⟨hra, hrb, hm1, hb0, hb1, hg, hls, has, hmt, hmf⟩ := motorPrep_projections
  obtain ⟨hav, haw, hbv, hbw⟩ := motorPrep_bodies
  obtain ⟨hg0, hg1⟩ := motor_gamma_bounds
  simp only [motorSolved, motorSolve, motorSettings, hra, hrb, hm1, hb0, hb1,
    hg, hls, has, hmt, hmf, hav, haw, hbv, hbw]
  norm_num
  have hlt : -((1 + motorJ0.gamma)⁻¹ * 100) < -1 := by
    have h2 : (1:ℝ) < 100 / (1 + motorJ0.gamma) :=
      (one_lt_div (by linarith)).mpr (by linarith)
    rw [div_eq_inv_mul] at h2
    linarith
  rw [clamp_eq_of_lt _ _ _ hlt]
  norm_num


/-- Claim C3, evaluated at the failing input: with the engine default
settings (warm starting on), one `prepare`+`solve` of a freshly constructed
motor joint between a resting static body and a body spinning at
100 rad/s drives the accumulated angular impulse to `-2`, although the cap
claimed by the spec is `maxTorque * dt = 1`.  The solve clamps the sums and
then adds the applied difference to them once more under warm starting, so
after `solve` the stored accumulated impulse exceeds the cap — the claimed
invariant fails on the code. -/
theorem motor_solve_angular_impulse_exceeds_cap :
    motorSolved.1.angularImpulseSum = -2 ∧
    motorSettings.dt * motorSolved.1.maxTorque = 1 ∧
    |motorSolved.1.angularImpulseSum| > motorSettings.dt * motorSolved.1.maxTorque := by
  have hmt2 : motorSolved.1.maxTorque = 60 := by
    obtain ⟨_, _, _, _, _, _, _, _, hmt, _⟩ := motorPrep_projections
    simp [motorSolved, motorSolve, motorSettings, hmt]
  refine ⟨motorSolved_angular, ?_, ?_⟩
  · rw [hmt2]
    norm_num [motorSettings]
  · rw [motorSolved_angular, hmt2]
    norm_num [motorSettings]


/-- `support` from `detection.ts`: farthest point of a shape along `dir` in
local space.  For a polygon the first vertex maximizing the dot product
(strict improvement, as in the source loop); for a circle the radius along
the normalized direction.  The source throws on other shapes; the shape
type here is closed, so no error case exists. -/
def supportPoly (verts : List Vector2) (dir : Vector2) : Vector2 :=
  match verts with
  | [] => ⟨0, 0⟩
  | v :: rest => rest.foldl (fun best w => if dir.dot w > dir.dot best then w else best) v

/-- Shape dispatch of `support`. -/
def support (c : Collider) (dir : Vector2) : Vector2 :=
  match c.shape with
  | .polygon verts => supportPoly verts dir
  | .circle radius => dir.normalized.mulS radius

/-- The result of `csoSupport`: the CSO support point together with the two
witness support points on the original shapes. -/
structure CSOSupportResult where
  support : Vector2
  supportA : Vector2
  supportB : Vector2

/-- `csoSupport` from `detection.ts`: transform the direction into each
body frame (negated for the second), take shape supports, map them back to
world space, and subtract. -/
def csoSupport (c1 c2 : Collider) (dir : Vector2) : CSOSupportResult :=
  let localDirP1 := c1.localToGlobal.mulVectorGL dir 0
  let localDirP2 := c2.localToGlobal.mulVectorGL (dir.mulS (-1)) 0
  let supportP1 := c1.localToGlobal.mulVectorLG (support c1 localDirP1) 1
  let supportP2 := c2.localToGlobal.mulVectorLG (support c2 localDirP2) 1
  ⟨supportP1.subV supportP2, supportP1, supportP2⟩

/-- The pair of witness points of a CSO vertex on the two original shapes. -/
structure SupportPair where
  p1 : Vector2
  p2 : Vector2

/-- Modelled from the spec: the `Simplex` of the absent `simplex.js` — an
ordered list of at most three CSO vertices, each paired with its witness
points. -/
structure Simplex where
  vertices : List Vector2
  supports : List SupportPair

/-- The number of simplex vertices. -/
def Simplex.count (s : Simplex) : ℕ := s.vertices.length

/-- Append a vertex with its witness pair. -/
def Simplex.addVertex (s : Simplex) (v : Vector2) (sup : SupportPair) : Simplex :=
  ⟨s.vertices ++ [v], s.supports ++ [sup]⟩

/-- Modelled from the spec: vertex-duplication test used by the GJK
progress check. -/
def Simplex.containsVertex (s : Simplex) (v : Vector2) : Prop := v ∈ s.vertices

instance (s : Simplex) (v : Vector2) : Decidable (s.containsVertex v) :=
  inferInstanceAs (Decidable (v ∈ s.vertices))

/-- Result of the closest-point query on a simplex: the closest point and
the indices of the vertices of the minimal sub-simplex supporting it. -/
structure ClosestResult where
  result : Vector2
  info : List ℕ

/-- Modelled from the spec: closest point of the segment from `a` to `b`
to `p`, with the indices (`0` for `a`, `1` for `b`) of the vertices
supporting it — an endpoint when the projection leaves the segment, the
projection itself otherwise. -/
def segClosest (a b p : Vector2) : ClosestResult :=
  let w := getUV a b p
  if w.v ≤ 0 then ⟨a, [0]⟩
  else if w.u ≤ 0 then ⟨b, [1]⟩
  else ⟨lerpVector a b w, [0, 1]⟩

/-- Modelled from the spec: closest point of the triangle `a b c` to `p`
with its minimal supporting sub-simplex.  If `p` is inside (all edge cross
products share a sign) the closest point is `p` itself, supported by all
three vertices; otherwise the best of the three edge queries (squared
distances compared, first minimum kept). -/
def triClosest (a b c p : Vector2) : ClosestResult :=
  let s0 := (b.subV a).cross (p.subV a)
  let s1 := (c.subV b).cross (p.subV b)
  let s2 := (a.subV c).cross (p.subV c)
  if (0 ≤ s0 ∧ 0 ≤ s1 ∧ 0 ≤ s2) ∨ (s0 ≤ 0 ∧ s1 ≤ 0 ∧ s2 ≤ 0) then ⟨p, [0, 1, 2]⟩
  else
    let e0 := segClosest a b p
    let e1raw := segClosest b c p
    let e1 : ClosestResult := ⟨e1raw.result, e1raw.info.map (fun i => i + 1)⟩
    let e2raw := segClosest c a p
    let e2 : ClosestResult := ⟨e2raw.result, e2raw.info.map (fun i => (i + 2) % 3)⟩
    let d0 := (e0.result.subV p).dot (e0.result.subV p)
    let d1 := (e1.result.subV p).dot (e1.result.subV p)
    let d2 := (e2.result.subV p).dot (e2.result.subV p)
    if d1 < d0 then (if d2 < d1 then e2 else e1) else (if d2 < d0 then e2 else e0)

/-- Modelled from the spec: `Simplex.getClosest` of the absent
`simplex.js` — the closest point on the current simplex to `p` and the
minimal sub-simplex (1 to 3 vertex indices) supporting it. -/
def Simplex.getClosest (s : Simplex) (p : Vector2) : ClosestResult :=
  match s.vertices with
  | [] => ⟨p, []⟩
  | [a] => ⟨a, [0]⟩
  | [a, b] => segClosest a b p
  | a :: b :: c :: _ => triClosest a b c p

/-- The rebuild step of the GJK loop: keep only the vertices involved in
the closest-distance computation (skipped for a single-vertex simplex). -/
def gjkRebuild (s : Simplex) (info : List ℕ) : Simplex :=
  if s.count ≠ 1 then
    ⟨info.map (fun i => s.vertices.getD i ⟨0, 0⟩),
     info.map (fun i => s.supports.getD i ⟨⟨0, 0⟩, ⟨0, 0⟩⟩)⟩
  else s

/-- The result of `gjk` from `detection.ts`. -/
structure GJKResult where
  collide : Bool
  simplex : Simplex

/-- One-iteration outcome of the GJK loop body. -/
inductive GJKStepResult where
  | done (r : GJKResult)
  | next (s : Simplex)

/-- The body of the GJK main loop (`detection.ts`): report collision when
the rounded closest point is the origin; otherwise rebuild the simplex,
search along `origin - closest`, and stop with no collision when the new
support point does not make progress past the closest point (rounded test)
or duplicates a simplex vertex; otherwise grow the simplex. -/
def gjkStep (c1 c2 : Collider) (s : Simplex) : GJKStepResult :=
  let closest := s.getClosest origin
  if vecFixed closest.result = origin then .done ⟨true, s⟩
  else
    let s1 := gjkRebuild s closest.info
    let dir := origin.subV closest.result
    let sp := csoSupport c1 c2 dir
    if 0 < toFixed (dir.getLength - dir.normalized.dot (sp.support.subV closest.result)) then
      .done ⟨false, s1⟩
    else if s1.containsVertex sp.support then
      .done ⟨false, s1⟩
    else
      .next (s1.addVertex sp.support ⟨sp.supportA, sp.supportB⟩)

/-- The bounded GJK loop: returns the result together with the number of
iterations of the loop body that executed.  Exhausted fuel reproduces the
fall-through of the source `for` loop: `collide` stays `false` and the
current simplex is returned. -/
def gjkLoop (c1 c2 : Collider) : ℕ → Simplex → GJKResult × ℕ
  | 0, s => (⟨false, s⟩, 0)
  | n + 1, s =>
    match gjkStep c1 c2 s with
    | .done r => (r, 1)
    | .next s2 =>
      let r := gjkLoop c1 c2 n s2
      (r.1, r.2 + 1)

/-- `MAX_ITERATION` from `detection.ts`. -/
def MAX_ITERATION : ℕ := 20

/-- `gjk` from `detection.ts` with its iteration count: seed the simplex
with the support along `(1, 0)` and run the bounded loop. -/
def gjkRun (c1 c2 : Collider) : GJKResult × ℕ :=
  let sp := csoSupport c1 c2 ⟨1, 0⟩
  let s0 : Simplex := ⟨[sp.support], [⟨sp.supportA, sp.supportB⟩]⟩
  gjkLoop c1 c2 MAX_ITERATION s0

/-- `gjk` from `detection.ts`. -/
def gjk (c1 c2 : Collider) : GJKResult := (gjkRun c1 c2).1

/-- Modelled from the spec: the `Polytope` of the absent `polytope.js` — a
cyclic vertex list grown by edge-wise insertion, with witness pairs. -/
structure Polytope where
  vertices : List Vector2
  supports : List SupportPair

/-- A polytope built from a terminal GJK simplex. -/
def Polytope.ofSimplex (s : Simplex) : Polytope := ⟨s.vertices, s.supports⟩

/-- The number of polytope vertices. -/
def Polytope.count (p : Polytope) : ℕ := p.vertices.length

/-- `ClosestEdgeInfo` of the absent `polytope.js`. -/
structure ClosestEdgeInfo where
  index : ℕ
  distance : ℝ
  normal : Vector2

/-- Modelled from the spec: the data of the polytope edge starting at
index `i` — the distance from the origin to the edge line and the outward
normal, the direction from the origin to its projection on the edge. -/
def Polytope.edgeInfo (poly : Polytope) (i : ℕ) : ClosestEdgeInfo :=
  let a := poly.vertices.getD i ⟨0, 0⟩
  let b := poly.vertices.getD ((i + 1) % poly.count) ⟨0, 0⟩
  let cp := lerpVector a b (getUV a b origin)
  ⟨i, cp.getLength, cp.normalized⟩

/-- Modelled from the spec: `Polytope.getClosestEdge` — the edge of
minimum distance to the origin (first minimum kept). -/
def Polytope.getClosestEdge (poly : Polytope) : ClosestEdgeInfo :=
  (List.range poly.count).foldl
    (fun best i =>
      let e := poly.edgeInfo i
      if e.distance < best.distance then e else best)
    (poly.edgeInfo 0)

/-- `TOLERANCE` from `detection.ts`. -/
def TOLERANCE : ℝ := 0.001

/-- The result of `epa` from `detection.ts`. -/
structure EPAResult where
  penetrationDepth : ℝ
  contactNormal : Vector2
  contactPointA : Vector2
  contactPointB : Vector2

/-- The bounded EPA expansion loop (`detection.ts`) with its iteration
count: find the closest edge, probe the CSO along its normal, and insert
the new support point after the edge start while it improves the distance
by more than `TOLERANCE`; otherwise stop.  The accumulator carries the
closest-edge information of the previous iteration, which exhausted fuel
returns, exactly as the source variable left behind by the `for` loop. -/
def epaLoop (c1 c2 : Collider) : ℕ → Polytope → ClosestEdgeInfo →
    Polytope × ClosestEdgeInfo × ℕ
  | 0, poly, ce => (poly, ce, 0)
  | n + 1, poly, _ce =>
    let ce2 := poly.getClosestEdge
    let sp := csoSupport c1 c2 ce2.normal
    let newDistance := ce2.normal.dot sp.support
    if TOLERANCE < |ce2.distance - newDistance| then
      let poly2 : Polytope := ⟨poly.vertices.insertIdx (ce2.index + 1) sp.support,
        poly.supports.insertIdx (ce2.index + 1) ⟨sp.supportA, sp.supportB⟩⟩
      let r := epaLoop c1 c2 n poly2 ce2
      (r.1, r.2.1, r.2.2 + 1)
    else
      (poly, ce2, 1)

/-- The EPA loop run from a terminal simplex with the full iteration
budget.  The initial accumulator is dead for a positive budget; the source
initializes its distance to `Infinity`, which the first iteration always
overwrites. -/
def epaRun (c1 c2 : Collider) (gjkSimplex : Simplex) :
    Polytope × ClosestEdgeInfo × ℕ :=
  epaLoop c1 c2 MAX_ITERATION (Polytope.ofSimplex gjkSimplex) ⟨0, 0, ⟨0, 0⟩⟩

/-- `epa` from `detection.ts`: expand the polytope, then reconstruct the
two world contact points by interpolating the witness points of the final
closest edge with the barycentric weights of the origin on that edge. -/
def epa (c1 c2 : Collider) (gjkSimplex : Simplex) : EPAResult :=
  let r := epaRun c1 c2 gjkSimplex
  let poly := r.1
  let ce := r.2.1
  let a := poly.vertices.getD ce.index ⟨0, 0⟩
  let b := poly.vertices.getD ((ce.index + 1) % poly.count) ⟨0, 0⟩
  let sup1 := poly.supports.getD ce.index ⟨⟨0, 0⟩, ⟨0, 0⟩⟩
  let sup2 := poly.supports.getD ((ce.index + 1) % poly.count) ⟨⟨0, 0⟩, ⟨0, 0⟩⟩
  let uv := getUV a b ⟨0, 0⟩
  ⟨ce.distance, ce.normal,
    lerpVertex sup1.p1 sup2.p1 uv.u uv.v,
    lerpVertex sup1.p2 sup2.p2 uv.u uv.v⟩

/-- `CollisionResult` from `detection.ts` (field spelling kept). -/
structure CollisionResult where
  collide : Bool
  penetrationDepth : Option ℝ
  collisionNormal : Option Vector2
  contactPonintA : Option Vector2
  contactPonintB : Option Vector2

/-- `detectCollision` from `detection.ts`: a non-3-vertex terminal simplex
is treated as no collision unconditionally; otherwise EPA runs and its
data is returned with `collide = true`. -/
def detectCollision (a b : Collider) : CollisionResult :=
  let gjkResult := gjk a b
  if gjkResult.simplex.count ≠ 3 then
    ⟨false, none, none, none, none⟩
  else
    let e := epa a b gjkResult.simplex
    ⟨true, some e.penetrationDepth, some e.contactNormal,
      some e.contactPointA, some e.contactPointB⟩


/-- The GJK loop executes at most `fuel` iterations. -/
lemma gjkLoop_iters_le (c1 c2 : Collider) :
    ∀ (fuel : ℕ) (s : Simplex), (gjkLoop c1 c2 fuel s).2 ≤ fuel := by
  intro fuel
  induction fuel with
  | zero => intro s; simp [gjkLoop]
  | succ n ih =>
    intro s
    simp only [gjkLoop]
    cases h : gjkStep c1 c2 s with
    | done r => simp
    | next s2 =>
      simp only
      exact Nat.succ_le_succ (ih s2)

/-- The EPA loop executes at most `fuel` iterations. -/
lemma epaLoop_iters_le (c1 c2 : Collider) :
    ∀ (fuel : ℕ) (poly : Polytope) (ce : ClosestEdgeInfo),
      (epaLoop c1 c2 fuel poly ce).2.2 ≤ fuel := by
  intro fuel
  induction fuel with
  | zero => intro poly ce; simp [epaLoop]
  | succ n ih =>
    intro poly ce
    simp only [epaLoop]
    split
    · simp only
      exact Nat.succ_le_succ (ih _ _)
    · simp

/-- Claim C7: for every input pair the GJK main loop executes at most 20
iterations and the EPA expansion loop executes at most 20 iterations; both
are total functions of their inputs, so each returns a result on every
input, numerically degenerate ones included. -/
theorem gjk_epa_iteration_caps :
    (∀ c1 c2 : Collider, (gjkRun c1 c2).2 ≤ 20) ∧
    (∀ (c1 c2 : Collider) (s : Simplex), (epaRun c1 c2 s).2.2 ≤ 20) := by
  constructor
  · intro c1 c2
    exact gjkLoop_iters_le c1 c2 MAX_ITERATION _
  · intro c1 c2 s
    exact epaLoop_iters_le c1 c2 MAX_ITERATION _ _

/-- Claim C6: `detectCollision` returns a bare `collide = false` exactly
when the terminal GJK simplex does not have 3 vertices — whatever `collide`
flag GJK itself reported — and otherwise returns `collide = true` with the
EPA depth, normal and the two contact points. -/
theorem detectCollision_cases (a b : Collider) :
    ((gjk a b).simplex.count ≠ 3 →
      detectCollision a b = ⟨false, none, none, none, none⟩) ∧
    ((gjk a b).simplex.count = 3 →
      detectCollision a b =
        ⟨true, some (epa a b (gjk a b).simplex).penetrationDepth,
          some (epa a b (gjk a b).simplex).contactNormal,
          some (epa a b (gjk a b).simplex).contactPointA,
          some (epa a b (gjk a b).simplex).contactPointB⟩) := by
  constructor <;> intro h <;> simp [detectCollision, h]

/-- Claim C5: in any GJK iteration whose (rounded) closest simplex point is
not the origin, if the new support point fails the rounded progress test,
or duplicates a vertex of the (rebuilt) simplex, then the loop stops at
that very iteration — one iteration executes from this state — and the
result reports `collide = false`. -/
theorem gjk_stop_reports_separation (c1 c2 : Collider) (s : Simplex) (fuel : ℕ)
    (h1 : vecFixed (s.getClosest origin).result ≠ origin)
    (h2 : 0 < toFixed ((origin.subV (s.getClosest origin).result).getLength -
        (origin.subV (s.getClosest origin).result).normalized.dot
          ((csoSupport c1 c2 (origin.subV (s.getClosest origin).result)).support.subV
            (s.getClosest origin).result)) ∨
      (gjkRebuild s (s.getClosest origin).info).containsVertex
        (csoSupport c1 c2 (origin.subV (s.getClosest origin).result)).support) :
    (gjkLoop c1 c2 (fuel + 1) s).1.collide = false ∧
    (gjkLoop c1 c2 (fuel + 1) s).2 = 1 := by
  have hstep : ∃ s1, gjkStep c1 c2 s = .done ⟨false, s1⟩ := by
    simp only [gjkStep]
    rw [if_neg h1]
    by_cases hc : 0 < toFixed ((origin.subV (s.getClosest origin).result).getLength -
        (origin.subV (s.getClosest origin).result).normalized.dot
          ((csoSupport c1 c2 (origin.subV (s.getClosest origin).result)).support.subV
            (s.getClosest origin).result))
    · rw [if_pos hc]
      exact ⟨_, rfl⟩
    · rw [if_neg hc]
      rcases h2 with h2 | h2
      · exact absurd h2 hc
      · rw [if_pos h2]
        exact ⟨_, rfl⟩
  obtain ⟨s1, hs⟩ := hstep
  simp [gjkLoop, hs]


/-- `toFixed` fixes real numbers with integer values. -/
lemma toFixed_int (n : ℤ) : toFixed (n : ℝ) = (n : ℝ) := by
  unfold toFixed
  have h : ((n : ℝ) / (1 / 10 ^ 13)) = ((n * 10 ^ 13 : ℤ) : ℝ) := by
    push_cast
    rw [div_div_eq_mul_div, div_one]
    norm_num
  rw [h, round_intCast]
  push_cast
  ring

/-- `toFixed` fixes any real equal to an integer. -/
lemma toFixed_eq_of_int (x : ℝ) (n : ℤ) (h : x = (n : ℝ)) : toFixed x = x := by
  rw [h, toFixed_int]

/-- A one-vertex polygon sitting at CSO point `(3, 4)` (identity
transform). -/
def colliderP : Collider where
  shape := .polygon [⟨3, 4⟩]
  position := ⟨0, 0⟩
  rotation := 0
  linearVelocity := ⟨0, 0⟩
  angularVelocity := 0
  mass := 1
  inverseMass := 1
  inertia := 1
  inverseInertia := 1
  centerOfMass := ⟨0, 0⟩
  friction := 0.7
  contactBeta := 0.5
  restitution := 0.001

/-- A one-vertex polygon at the origin (identity transform). -/
def colliderQ : Collider where
  shape := .polygon [⟨0, 0⟩]
  position := ⟨0, 0⟩
  rotation := 0
  linearVelocity := ⟨0, 0⟩
  angularVelocity := 0
  mass := 1
  inverseMass := 1
  inertia := 1
  inverseInertia := 1
  centerOfMass := ⟨0, 0⟩
  friction := 0.7
  contactBeta := 0.5
  restitution := 0.001

/-- Every CSO support query of the pair returns the single CSO point. -/
lemma csoSupport_PQ (d : Vector2) :
    csoSupport colliderP colliderQ d = ⟨⟨3, 4⟩, ⟨3, 4⟩, ⟨0, 0⟩⟩ := by
  simp [csoSupport, support, supportPoly, colliderP, colliderQ,
    Collider.localToGlobal, Transform.mulVectorGL, Transform.mulVectorLG,
    rotateVec, Vector2.subV, Vector2.mulS, Vector2.addV, Real.cos_zero,
    Real.sin_zero]

/-- The simplex GJK builds for the pair before its first iteration. -/
def simplexPQ : Simplex := ⟨[⟨3, 4⟩], [⟨⟨3, 4⟩, ⟨0, 0⟩⟩]⟩

/-- The closest point of the one-vertex simplex is its vertex. -/
lemma getClosest_PQ : simplexPQ.getClosest origin = ⟨⟨3, 4⟩, [0]⟩ := rfl

/-- The rounded closest point of the concrete simplex is not the origin. -/
lemma fixed_PQ_ne : vecFixed (simplexPQ.getClosest origin).result ≠ origin := by
  have h3 : toFixed 3 = 3 := toFixed_eq_of_int 3 3 (by norm_num)
  rw [getClosest_PQ]
  norm_num [vecFixed, origin, h3, Vector2.mk.injEq]

/-- The progress test of the first GJK iteration fires on the concrete
pair: the new support point cannot advance past the closest point. -/
lemma progress_PQ :
    0 < toFixed ((origin.subV (simplexPQ.getClosest origin).result).getLength -
      (origin.subV (simplexPQ.getClosest origin).result).normalized.dot
        ((csoSupport colliderP colliderQ
          (origin.subV (simplexPQ.getClosest origin).result)).support.subV
            (simplexPQ.getClosest origin).result)) := by
  rw [getClosest_PQ, csoSupport_PQ]
  norm_num [origin, Vector2.subV, Vector2.dot, Vector2.normalized,
    Vector2.mulS, Vector2.getLength]
  rw [show Real.sqrt 25 = 5 by
      rw [show (25:ℝ) = 5 ^ 2 by norm_num]
      exact Real.sqrt_sq (by norm_num),
    toFixed_eq_of_int 5 5 (by norm_num)]
  norm_num

/-- Witness for claim C5 at the concrete pair and simplex: the loop stops
after exactly one iteration and reports no collision. -/
theorem gjk_stop_reports_separation_witness :
    (gjkLoop colliderP colliderQ 20 simplexPQ).1.collide = false ∧
    (gjkLoop colliderP colliderQ 20 simplexPQ).2 = 1 :=
  gjk_stop_reports_separation colliderP colliderQ simplexPQ 19 fixed_PQ_ne
    (Or.inl progress_PQ)

/-- The first GJK iteration on the concrete pair stops with no collision
and leaves the one-vertex simplex unchanged. -/
lemma gjkStep_PQ :
    gjkStep colliderP colliderQ simplexPQ = .done ⟨false, simplexPQ⟩ := by
  simp only [gjkStep]
  rw [if_neg fixed_PQ_ne, if_pos progress_PQ]
  simp [gjkRebuild, simplexPQ, Simplex.count]

/-- The whole GJK run on the concrete pair: no collision with a terminal
one-vertex simplex. -/
lemma gjk_PQ : gjk colliderP colliderQ = ⟨false, simplexPQ⟩ := by
  unfold gjk gjkRun
  rw [csoSupport_PQ]
  simp only [MAX_ITERATION]
  rw [show (20:ℕ) = 19 + 1 from rfl]
  have hs : (⟨[(⟨⟨3, 4⟩, ⟨3, 4⟩, ⟨0, 0⟩⟩ : CSOSupportResult).support],
      [⟨(⟨⟨3, 4⟩, ⟨3, 4⟩, ⟨0, 0⟩⟩ : CSOSupportResult).supportA,
        (⟨⟨3, 4⟩, ⟨3, 4⟩, ⟨0, 0⟩⟩ : CSOSupportResult).supportB⟩]⟩ : Simplex) =
      simplexPQ := rfl
  rw [hs]
  simp [gjkLoop, gjkStep_PQ]

/-- Witness for claim C6 at the concrete pair: the terminal simplex has one
vertex, so `detectCollision` returns the bare no-collision result. -/
theorem detectCollision_cases_witness :
    detectCollision colliderP colliderQ = ⟨false, none, none, none, none⟩ :=
  (detectCollision_cases colliderP colliderQ).1
    (by rw [gjk_PQ]; norm_num [simplexPQ, Simplex.count])

end Physics
